import Mathlib

/-
Verification of the temporal streaming pipeline of itk::TemporalProcessObject
(itkTemporalProcessObject.cxx) and of the prime-factor size check of
itk::VnlForwardFFTImageFilter (itkVnlForwardFFTImageFilter.hxx).

Modelling conventions:
 - The headers declaring TemporalRegion, TemporalDataObject and the member
   fields of TemporalProcessObject are not part of the excerpt; their data
   model follows the specification: a temporal region has a signed frame
   start and an unsigned frame duration, a temporal data object carries the
   largest-possible, requested and buffered regions, and a process object
   carries the four configuration fields set in the constructor.
 - Local variables that the source declares as unsigned long are modelled
   as 64-bit (LP64): wherever the source can drive such a variable through
   a wraparound at small inputs (the decrement of numInputRequests at zero
   duration, the backward stepping of regionStartFrame), the embedding
   applies an explicit reduction modulo 2^64.
 - The double-precision intermediate computations (ceil of a quotient in
   GenerateInputRequestedTemporalRegion and SplitRequestedTemporalRegion,
   the quotient in UpdateOutputInformation) are modelled by exact integer
   arithmetic: ceiling division on naturals, and truncation toward zero of
   the exact product for the conversion of the double expression to long.
 - itkExceptionMacro aborts the surrounding call; fallible operations
   return Except with a value of the error taxonomy of the specification.
   A dereference of a failed dynamic_cast (undefined behavior in the
   source) is modelled as the distinguished error nullAccess.
-/

/-- Ceiling division on naturals: the value of ceil((double)a / (double)b)
for positive b (exact for the magnitudes a double represents exactly). -/
def ceilDivNat (a b : Nat) : Nat := (a + b - 1) / b

/-- Reduction of a signed value into an unsigned 64-bit variable (LP64
unsigned long): the representative in [0, 2^64). -/
def wrap64 (x : Int) : Int := Int.emod x (2 ^ 64)

/-- Modelled from the spec: itkTemporalRegion.h is not in the excerpt.
A temporal region is a contiguous span of frames: a signed frame start
index and an unsigned count of frames (spec section 3). -/
structure TemporalRegion where
  frameStart : Int
  frameDuration : Nat
deriving DecidableEq, Repr

/-- Modelled from the spec: itkTemporalDataObject.h is not in the excerpt.
A temporal data object holds the three named regions of spec section 3. -/
structure TemporalDataObject where
  largestPossibleTemporalRegion : TemporalRegion
  requestedTemporalRegion : TemporalRegion
  bufferedTemporalRegion : TemporalRegion
deriving DecidableEq, Repr

/-- The error taxonomy of spec section 7; nullAccess stands for the crash
that follows dereferencing an unchecked failed dynamic_cast. -/
inductive TemporalError where
  | typeMismatch : TemporalError
  | invalidRegion : Int → TemporalError
  | nullAccess : TemporalError
  | notImplementedHook : TemporalError
deriving DecidableEq, Repr

/-- A generic itk::DataObject: either a TemporalDataObject or some other,
non-temporal kind (the view a dynamic_cast distinguishes). -/
inductive DataObject where
  | temporal : TemporalDataObject → DataObject
  | generic : DataObject
deriving DecidableEq, Repr

/-- The dynamic_cast of a DataObject to TemporalDataObject. -/
def DataObject.asTemporal : DataObject → Option TemporalDataObject
  | .temporal t => some t
  | .generic => none

/-- Modelled from the spec: itkTemporalProcessObject.h is not in the
excerpt. The four configuration fields, in the order initialized by the
constructor of the source: m_UnitInputNumberOfFrames(1),
m_UnitOutputNumberOfFrames(1), m_FrameSkipPerOutput(1),
m_InputStencilCurrentFrameIndex(0); the frame skip is signed (its sign
selects forward or backward traversal). -/
structure TPOConfig where
  unitInputNumberOfFrames : Nat
  unitOutputNumberOfFrames : Nat
  frameSkipPerOutput : Int
  inputStencilCurrentFrameIndex : Int
deriving DecidableEq, Repr

/-- TemporalProcessObject::EnlargeOutputRequestedTemporalRegion: rounds the
requested output frame duration up to the next multiple of
m_UnitOutputNumberOfFrames by adding the complement of the remainder when
the remainder is positive. -/
def EnlargeOutputRequestedTemporalRegion (cfg : TPOConfig)
    (output : TemporalDataObject) : TemporalDataObject :=
  let outReqTempRegion := output.requestedTemporalRegion
  let outFrameDuration := outReqTempRegion.frameDuration
  let remainder := outFrameDuration % cfg.unitOutputNumberOfFrames
  let outFrameDuration :=
    if 0 < remainder then
      outFrameDuration + (cfg.unitOutputNumberOfFrames - remainder)
    else
      outFrameDuration
  { output with requestedTemporalRegion :=
      { outReqTempRegion with frameDuration := outFrameDuration } }

/-- The number of input requests computed by
GenerateInputRequestedTemporalRegion:
ceil(outputFrameDuration / m_UnitOutputNumberOfFrames). -/
def numInputRequestsOf (cfg : TPOConfig) (outDur : Nat) : Nat :=
  ceilDivNat outDur cfg.unitOutputNumberOfFrames

/-- The input duration computed by GenerateInputRequestedTemporalRegion:
the source stores m_FrameSkipPerOutput * (numInputRequests - 1) +
m_UnitInputNumberOfFrames into an unsigned long local (numInputRequests
is itself an unsigned long, so at numInputRequests = 0 the subtraction
wraps); the composite is the value of the exact integer expression
reduced modulo 2^64. -/
def inputDurationOf (cfg : TPOConfig) (outDur : Nat) : Nat :=
  (wrap64 (cfg.frameSkipPerOutput * ((numInputRequestsOf cfg outDur : Int) - 1) +
    (cfg.unitInputNumberOfFrames : Int))).toNat

/-- TemporalProcessObject::GenerateInputRequestedTemporalRegion: from the
output's requested region compute the number of unit requests, the input
duration, and the input start (output start minus
m_InputStencilCurrentFrameIndex); fail when the input start is negative,
otherwise set the input's requested temporal region. The updated input is
returned; an error leaves the input untouched. -/
def GenerateInputRequestedTemporalRegion (cfg : TPOConfig)
    (input output : TemporalDataObject) :
    Except TemporalError TemporalDataObject :=
  let outReqTempRegion := output.requestedTemporalRegion
  let inputDuration := inputDurationOf cfg outReqTempRegion.frameDuration
  let inputStart : Int :=
    outReqTempRegion.frameStart - cfg.inputStencilCurrentFrameIndex
  if inputStart < 0 then
    Except.error (TemporalError.invalidRegion inputStart)
  else
    Except.ok { input with requestedTemporalRegion :=
      { frameStart := inputStart, frameDuration := inputDuration } }

/-- The body of GenerateInputRequestedTemporalRegion as called on generic
data objects: the source re-casts input(0) and output(0) without checking
(the comment says the caller verified them) and dereferences the results,
so a non-temporal object here is a null dereference. -/
def GenerateInputRequestedTemporalRegionD (cfg : TPOConfig)
    (input output : DataObject) : Except TemporalError TemporalDataObject :=
  match input.asTemporal, output.asTemporal with
  | some i, some o => GenerateInputRequestedTemporalRegion cfg i o
  | _, _ => Except.error TemporalError.nullAccess

/-- TemporalProcessObject::GenerateInputRequestedRegion: the source casts
this->GetOutput(0) to TemporalDataObject twice (lines 518 and 519) - the
variable named tInput is also computed from GetOutput(0) - raises
TypeMismatch when a cast fails, and otherwise proceeds to
GenerateInputRequestedTemporalRegion. -/
def GenerateInputRequestedRegion (cfg : TPOConfig)
    (input output : DataObject) : Except TemporalError TemporalDataObject :=
  let tOutput := output.asTemporal
  let tInput := output.asTemporal
  match tOutput with
  | none => Except.error TemporalError.typeMismatch
  | some _ =>
    match tInput with
    | none => Except.error TemporalError.typeMismatch
    | some _ => GenerateInputRequestedTemporalRegionD cfg input output

/-- TemporalProcessObject::UpdateOutputInformation (temporal part): from
the input's largest possible region compute the scannable duration, the
output duration and the output start, and install them in the output's
largest possible region. The source computes the output duration as
m_UnitOutputNumberOfFrames * ((double)(scannableDuration - 1) /
(double)m_FrameSkipPerOutput + 1) converted to long: under exact
arithmetic that conversion truncates the product
unitOutput * (scannableDuration - 1 + frameSkip) / frameSkip toward zero,
and the store into the unsigned duration field reduces modulo 2^64. -/
def UpdateOutputInformation (cfg : TPOConfig)
    (input output : TemporalDataObject) : TemporalDataObject :=
  let inputLargestRegion := input.largestPossibleTemporalRegion
  let scannableDuration : Int :=
    (inputLargestRegion.frameDuration : Int) -
      (cfg.unitInputNumberOfFrames : Int) + 1
  let outputDuration : Int :=
    Int.tdiv ((cfg.unitOutputNumberOfFrames : Int) *
      (scannableDuration - 1 + cfg.frameSkipPerOutput)) cfg.frameSkipPerOutput
  let outputStart : Int :=
    inputLargestRegion.frameStart + cfg.inputStencilCurrentFrameIndex
  { output with largestPossibleTemporalRegion :=
      { frameStart := outputStart,
        frameDuration := (wrap64 outputDuration).toNat } }

/-- The emission loop of SplitRequestedTemporalRegion: n windows of
duration m_UnitInputNumberOfFrames, each start offset from the previous by
m_FrameSkipPerOutput; the running start is an unsigned long local, so each
step reduces modulo 2^64. -/
def splitGo (k : Int) (ui : Nat) : Nat → Int → List TemporalRegion
  | 0, _ => []
  | n + 1, s => ⟨s, ui⟩ :: splitGo k ui n (wrap64 (s + k))

/-- TemporalProcessObject::SplitRequestedTemporalRegion, as a function of
the output's unbuffered requested region (the source reads it from the
output object): numRequests = ceil(unbufferedDuration / unitOutput); the
start is initialized to 1, overwritten with the unbuffered start for a
positive frame skip and with unbufferedStart + unbufferedDuration -
m_UnitOutputNumberOfFrames for a negative one; then numRequests windows
are emitted. -/
def SplitRequestedTemporalRegion (cfg : TPOConfig)
    (unbufferedRegion : TemporalRegion) : List TemporalRegion :=
  let numRequests :=
    ceilDivNat unbufferedRegion.frameDuration cfg.unitOutputNumberOfFrames
  let regionStartFrame : Int :=
    if 0 < cfg.frameSkipPerOutput then
      wrap64 unbufferedRegion.frameStart
    else if cfg.frameSkipPerOutput < 0 then
      wrap64 (unbufferedRegion.frameStart +
        (unbufferedRegion.frameDuration : Int) -
        (cfg.unitOutputNumberOfFrames : Int))
    else 1
  splitGo cfg.frameSkipPerOutput cfg.unitInputNumberOfFrames
    numRequests regionStartFrame

/-- One run of the inner division loop of
VnlForwardFFTImageFilter::IsDimensionSizeLegal
(for (; n % ifac == 0;) n /= ifac;) under a fuel bound: none means the
loop did not exit within the given number of condition checks. -/
def divLoop (f : Nat) : Nat → Nat → Option Nat
  | _, 0 => none
  | n, fuel + 1 => if n % f = 0 then divLoop f (n / f) fuel else some n

/-- VnlForwardFFTImageFilter::IsDimensionSizeLegal under a fuel bound:
ifac takes the values 2, 3, 5 (ifac starts at 2 and is incremented by
l = 1, 2 after the first two inner loops); the result is the test n == 1
on the fully divided value. -/
def IsDimensionSizeLegalFuel (n fuel : Nat) : Option Bool :=
  (divLoop 2 n fuel).bind fun n1 =>
    (divLoop 3 n1 fuel).bind fun n2 =>
      (divLoop 5 n2 fuel).map fun n3 => n3 == 1

/-- The value the inner division loop leaves behind when it terminates:
n with every factor f divided out (total by the guards 2 <= f, 0 < n). -/
def stripFactor (f : Nat) (n : Nat) : Nat :=
  if h : 2 ≤ f ∧ 0 < n ∧ n % f = 0 then
    stripFactor f (n / f)
  else n
termination_by n
decreasing_by exact Nat.div_lt_self h.2.1 (by omega)

/-- The terminating value of IsDimensionSizeLegal on a positive size:
divide out 2s, 3s and 5s and test for 1. -/
def IsDimensionSizeLegal (n : Nat) : Bool :=
  stripFactor 5 (stripFactor 3 (stripFactor 2 n)) == 1

instance {ε α : Type} [DecidableEq ε] [DecidableEq α] : DecidableEq (Except ε α)
  | .error e, .error f =>
    if h : e = f then .isTrue (by rw [h]) else .isFalse fun hh => h (Except.error.inj hh)
  | .error _, .ok _ => .isFalse fun hh => Except.noConfusion hh
  | .ok _, .error _ => .isFalse fun hh => Except.noConfusion hh
  | .ok a, .ok b =>
    if h : a = b then .isTrue (by rw [h]) else .isFalse fun hh => h (Except.ok.inj hh)

/-- C7: for a positive unit output frame count, EnlargeOutputRequestedTemporalRegion
leaves the requested frame duration a multiple of unitOutputNumberOfFrames, at least
the originally requested duration, below the next unit boundary past it, and
unchanged when the original duration is already a multiple. -/
theorem enlargeOutputRequestedTemporalRegion_spec (cfg : TPOConfig)
    (output : TemporalDataObject) (h : 0 < cfg.unitOutputNumberOfFrames) :
    (EnlargeOutputRequestedTemporalRegion cfg output).requestedTemporalRegion.frameDuration
        % cfg.unitOutputNumberOfFrames = 0 ∧
    output.requestedTemporalRegion.frameDuration ≤
      (EnlargeOutputRequestedTemporalRegion cfg output).requestedTemporalRegion.frameDuration ∧
    (EnlargeOutputRequestedTemporalRegion cfg output).requestedTemporalRegion.frameDuration <
      output.requestedTemporalRegion.frameDuration + cfg.unitOutputNumberOfFrames ∧
    (output.requestedTemporalRegion.frameDuration % cfg.unitOutputNumberOfFrames = 0 →
      (EnlargeOutputRequestedTemporalRegion cfg output).requestedTemporalRegion.frameDuration =
        output.requestedTemporalRegion.frameDuration) := by
  have hE : (EnlargeOutputRequestedTemporalRegion cfg output).requestedTemporalRegion.frameDuration
      = if 0 < output.requestedTemporalRegion.frameDuration % cfg.unitOutputNumberOfFrames then
          output.requestedTemporalRegion.frameDuration +
            (cfg.unitOutputNumberOfFrames -
              output.requestedTemporalRegion.frameDuration % cfg.unitOutputNumberOfFrames)
        else output.requestedTemporalRegion.frameDuration := rfl
  rw [hE]
  have hlt : output.requestedTemporalRegion.frameDuration % cfg.unitOutputNumberOfFrames <
      cfg.unitOutputNumberOfFrames := Nat.mod_lt _ h
  by_cases hr : 0 < output.requestedTemporalRegion.frameDuration % cfg.unitOutputNumberOfFrames
  · rw [if_pos hr]
    refine ⟨?_, by omega, by omega, by omega⟩
    rw [Nat.add_mod,
      Nat.mod_eq_of_lt (a := cfg.unitOutputNumberOfFrames -
        output.requestedTemporalRegion.frameDuration % cfg.unitOutputNumberOfFrames) (by omega)]
    have hsum : output.requestedTemporalRegion.frameDuration % cfg.unitOutputNumberOfFrames +
        (cfg.unitOutputNumberOfFrames -
          output.requestedTemporalRegion.frameDuration % cfg.unitOutputNumberOfFrames) =
        cfg.unitOutputNumberOfFrames := by omega
    rw [hsum, Nat.mod_self]
  · rw [if_neg hr]
    omega

/-- C7 witness: the configuration with unit output 4 and a requested duration
of 6 frames is enlarged to 8 frames. -/
theorem enlargeOutputRequestedTemporalRegion_spec_witness :
    0 < (4 : Nat) ∧
    ((EnlargeOutputRequestedTemporalRegion ⟨1,4,1,0⟩
        ⟨⟨0,0⟩,⟨0,6⟩,⟨0,0⟩⟩).requestedTemporalRegion.frameDuration % 4 = 0 ∧
      6 ≤ (EnlargeOutputRequestedTemporalRegion ⟨1,4,1,0⟩
        ⟨⟨0,0⟩,⟨0,6⟩,⟨0,0⟩⟩).requestedTemporalRegion.frameDuration ∧
      (EnlargeOutputRequestedTemporalRegion ⟨1,4,1,0⟩
        ⟨⟨0,0⟩,⟨0,6⟩,⟨0,0⟩⟩).requestedTemporalRegion.frameDuration < 6 + 4 ∧
      ((6 : Nat) % 4 = 0 →
        (EnlargeOutputRequestedTemporalRegion ⟨1,4,1,0⟩
          ⟨⟨0,0⟩,⟨0,6⟩,⟨0,0⟩⟩).requestedTemporalRegion.frameDuration = 6)) :=
  ⟨by decide, enlargeOutputRequestedTemporalRegion_spec ⟨1,4,1,0⟩ ⟨⟨0,0⟩,⟨0,6⟩,⟨0,0⟩⟩ (by decide)⟩

/-- C2: whenever the computed input start (output requested start minus the
stencil index) is negative, GenerateInputRequestedTemporalRegion fails with the
InvalidRegion error carrying that start; no region is installed on the input
(an error aborts the call before the assignment). -/
theorem genInputRequestedTemporalRegion_negative_start_fails (cfg : TPOConfig)
    (input output : TemporalDataObject)
    (hneg : output.requestedTemporalRegion.frameStart -
      cfg.inputStencilCurrentFrameIndex < 0) :
    GenerateInputRequestedTemporalRegion cfg input output =
      Except.error (TemporalError.invalidRegion
        (output.requestedTemporalRegion.frameStart -
          cfg.inputStencilCurrentFrameIndex)) := by
  simp only [GenerateInputRequestedTemporalRegion]
  rw [if_pos hneg]

/-- C2 witness: with unitOutput 1, unitInput 3, frame skip 1, stencil index 1
and an output request starting at frame 0, the computed input start is -1 and
the call fails with InvalidRegion. -/
theorem genInputRequestedTemporalRegion_negative_start_fails_witness :
    ((⟨0,1⟩ : TemporalRegion).frameStart - (1 : Int) < 0) ∧
    GenerateInputRequestedTemporalRegion ⟨3,1,1,1⟩ ⟨⟨0,0⟩,⟨0,0⟩,⟨0,0⟩⟩
        ⟨⟨0,0⟩,⟨0,1⟩,⟨0,0⟩⟩ =
      Except.error (TemporalError.invalidRegion (-1)) :=
  ⟨by decide,
    (genInputRequestedTemporalRegion_negative_start_fails ⟨3,1,1,1⟩
      ⟨⟨0,0⟩,⟨0,0⟩,⟨0,0⟩⟩ ⟨⟨0,0⟩,⟨0,1⟩,⟨0,0⟩⟩ (by decide)).trans (by decide)⟩

/-- C1 counterexample: with unitOutput 1, unitInput 3, frame skip 1, stencil 1
and output request [0, 1), the claimed unconditional assignment does not
happen: the call fails with InvalidRegion, and in particular does not return
the input updated with the region [-1, 3) that the claimed formulas dictate. -/
theorem genInputRequestedTemporalRegion_claim_cex :
    GenerateInputRequestedTemporalRegion ⟨3,1,1,1⟩ ⟨⟨0,0⟩,⟨0,0⟩,⟨0,0⟩⟩
        ⟨⟨0,0⟩,⟨0,1⟩,⟨0,0⟩⟩ =
      Except.error (TemporalError.invalidRegion (-1)) ∧
    GenerateInputRequestedTemporalRegion ⟨3,1,1,1⟩ ⟨⟨0,0⟩,⟨0,0⟩,⟨0,0⟩⟩
        ⟨⟨0,0⟩,⟨0,1⟩,⟨0,0⟩⟩ ≠
      Except.ok ⟨⟨0,0⟩,⟨-1,3⟩,⟨0,0⟩⟩ := by decide

/-- C1 (amended): when the computed input start is nonnegative (otherwise the
call fails, see the counterexample) and the computed input duration value
fits the unsigned long local, GenerateInputRequestedTemporalRegion sets the
input requested region to start = outputStart - stencil and duration =
frameSkip * (ceil(outputDuration / unitOutput) - 1) + unitInput. -/
theorem genInputRequestedTemporalRegion_sets_region (cfg : TPOConfig)
    (input output : TemporalDataObject)
    (hstart : 0 ≤ output.requestedTemporalRegion.frameStart -
      cfg.inputStencilCurrentFrameIndex)
    (hdur0 : 0 ≤ cfg.frameSkipPerOutput *
        ((numInputRequestsOf cfg output.requestedTemporalRegion.frameDuration : Int) - 1) +
        (cfg.unitInputNumberOfFrames : Int))
    (hdur1 : cfg.frameSkipPerOutput *
        ((numInputRequestsOf cfg output.requestedTemporalRegion.frameDuration : Int) - 1) +
        (cfg.unitInputNumberOfFrames : Int) < 2 ^ 64) :
    GenerateInputRequestedTemporalRegion cfg input output =
      Except.ok { input with requestedTemporalRegion :=
        { frameStart := output.requestedTemporalRegion.frameStart -
            cfg.inputStencilCurrentFrameIndex,
          frameDuration := (cfg.frameSkipPerOutput *
            ((numInputRequestsOf cfg output.requestedTemporalRegion.frameDuration : Int) - 1) +
            (cfg.unitInputNumberOfFrames : Int)).toNat } } := by
  have hw : wrap64 (cfg.frameSkipPerOutput *
      ((numInputRequestsOf cfg output.requestedTemporalRegion.frameDuration : Int) - 1) +
      (cfg.unitInputNumberOfFrames : Int)) =
      cfg.frameSkipPerOutput *
      ((numInputRequestsOf cfg output.requestedTemporalRegion.frameDuration : Int) - 1) +
      (cfg.unitInputNumberOfFrames : Int) := Int.emod_eq_of_lt hdur0 hdur1
  simp only [GenerateInputRequestedTemporalRegion, inputDurationOf]
  rw [hw, if_neg (not_lt.mpr hstart)]

/-- C1 witness: the scenario of the specification: configuration
(unitInput 3, unitOutput 1, skip 1, stencil 1) and output request [5, 1)
produce the input requested region [4, 3). -/
theorem genInputRequestedTemporalRegion_sets_region_witness :
    ((0:Int) ≤ (⟨5,1⟩ : TemporalRegion).frameStart - (1 : Int)) ∧
    GenerateInputRequestedTemporalRegion ⟨3,1,1,1⟩ ⟨⟨0,0⟩,⟨0,0⟩,⟨0,0⟩⟩
        ⟨⟨0,0⟩,⟨5,1⟩,⟨0,0⟩⟩ =
      Except.ok ⟨⟨0,0⟩,⟨4,3⟩,⟨0,0⟩⟩ :=
  ⟨by decide,
    (genInputRequestedTemporalRegion_sets_region ⟨3,1,1,1⟩ ⟨⟨0,0⟩,⟨0,0⟩,⟨0,0⟩⟩
      ⟨⟨0,0⟩,⟨5,1⟩,⟨0,0⟩⟩ (by decide) (by decide) (by decide)).trans (by decide)⟩

/-- C8: GenerateInputRequestedTemporalRegion is idempotent on the success
path: when a first call succeeds and installs a requested region on the
input, a second call with the same configuration and the same output
requested region returns the same input state. -/
theorem genInputRequestedTemporalRegion_idempotent (cfg : TPOConfig)
    (input output result : TemporalDataObject)
    (h : GenerateInputRequestedTemporalRegion cfg input output = Except.ok result) :
    GenerateInputRequestedTemporalRegion cfg result output = Except.ok result := by
  simp only [GenerateInputRequestedTemporalRegion] at h ⊢
  by_cases hc : output.requestedTemporalRegion.frameStart -
      cfg.inputStencilCurrentFrameIndex < 0
  · rw [if_pos hc] at h
    exact absurd h (by simp)
  · rw [if_neg hc] at h ⊢
    obtain rfl := Except.ok.inj h
    rfl

/-- C8 witness: in the scenario configuration, the first call produces the
input state with requested region [4, 3), and a repeated call reproduces it. -/
theorem genInputRequestedTemporalRegion_idempotent_witness :
    GenerateInputRequestedTemporalRegion ⟨3,1,1,1⟩ ⟨⟨0,0⟩,⟨0,0⟩,⟨0,0⟩⟩
        ⟨⟨0,0⟩,⟨5,1⟩,⟨0,0⟩⟩ = Except.ok ⟨⟨0,0⟩,⟨4,3⟩,⟨0,0⟩⟩ ∧
    GenerateInputRequestedTemporalRegion ⟨3,1,1,1⟩ ⟨⟨0,0⟩,⟨4,3⟩,⟨0,0⟩⟩
        ⟨⟨0,0⟩,⟨5,1⟩,⟨0,0⟩⟩ = Except.ok ⟨⟨0,0⟩,⟨4,3⟩,⟨0,0⟩⟩ :=
  ⟨by decide,
    genInputRequestedTemporalRegion_idempotent ⟨3,1,1,1⟩ ⟨⟨0,0⟩,⟨0,0⟩,⟨0,0⟩⟩
      ⟨⟨0,0⟩,⟨5,1⟩,⟨0,0⟩⟩ ⟨⟨0,0⟩,⟨4,3⟩,⟨0,0⟩⟩ (by decide)⟩

/-- The emission loop produces exactly the number of windows asked for. -/
theorem splitGo_length (k : Int) (ui : Nat) :
    ∀ (n : Nat) (s : Int), (splitGo k ui n s).length = n
  | 0, _ => rfl
  | n + 1, s => by simp [splitGo, splitGo_length k ui n]

/-- Every window emitted by the loop carries the unit input duration. -/
theorem splitGo_duration (k : Int) (ui : Nat) :
    ∀ (n : Nat) (s : Int) (r : TemporalRegion),
      r ∈ splitGo k ui n s → r.frameDuration = ui
  | 0, _, r, hr => absurd hr (List.not_mem_nil r)
  | n + 1, s, r, hr => by
    rcases List.mem_cons.mp hr with h | h
    · rw [h]
    · exact splitGo_duration k ui n _ r h

/-- When no intermediate start value wraps (each lies in the unsigned 64-bit
range), the emission loop produces the arithmetic progression of starts. -/
theorem splitGo_eq_map (k : Int) (ui : Nat) :
    ∀ (n : Nat) (s : Int),
      (∀ j : Nat, j < n → 0 ≤ s + (j : Int) * k ∧ s + (j : Int) * k < 2 ^ 64) →
      splitGo k ui n s =
        (List.range n).map (fun i => ⟨s + (i : Int) * k, ui⟩) := by
  intro n
  induction n with
  | zero => intro s _; rfl
  | succ m ih =>
    intro s H
    rw [List.range_succ_eq_map, List.map_cons, List.map_map]
    show (⟨s, ui⟩ : TemporalRegion) :: splitGo k ui m (wrap64 (s + k)) = _
    congr 1
    · simp
    · cases m with
      | zero => rfl
      | succ p =>
        have H2 : ∀ j : Nat, j < p + 1 →
            0 ≤ s + k + (j : Int) * k ∧ s + k + (j : Int) * k < 2 ^ 64 := by
          intro j hj
          have h2 := H (j + 1) (by omega)
          have he : s + ((j + 1 : Nat) : Int) * k = s + k + (j : Int) * k := by
            push_cast; ring
          rw [he] at h2
          exact h2
        have h1 := H 1 (by omega)
        have hw : wrap64 (s + k) = s + k := by
          unfold wrap64
          exact Int.emod_eq_of_lt (by simpa using h1.1) (by simpa using h1.2)
        rw [hw, ih (s + k) H2]
        apply List.map_congr_left
        intro i hi
        simp only [Function.comp_apply]
        congr 1
        push_cast
        ring

/-- Variant for a start value stored through the unsigned local before the
loop starts: when the windows stay in range the wrap is the identity. -/
theorem splitGo_wrap_eq_map (k : Int) (ui : Nat) (n : Nat) (s : Int)
    (H : ∀ j : Nat, j < n → 0 ≤ s + (j : Int) * k ∧ s + (j : Int) * k < 2 ^ 64) :
    splitGo k ui n (wrap64 s) =
      (List.range n).map (fun i => ⟨s + (i : Int) * k, ui⟩) := by
  cases n with
  | zero => rfl
  | succ m =>
    have h0 := H 0 (Nat.succ_pos m)
    have hw : wrap64 s = s := by
      unfold wrap64
      exact Int.emod_eq_of_lt (by simpa using h0.1) (by simpa using h0.2)
    rw [hw]
    exact splitGo_eq_map k ui (m + 1) s H

/-- C3 counterexample: with unitInput 3, unitOutput 2, frame skip -1 and the
unbuffered region [10, 4), the emitted window starts are 12 and 11: the first
window starts at unbufferedStart + unbufferedDuration - unitOutputNumberOfFrames
= 12, not at unbufferedStart + unbufferedDuration - unitInputNumberOfFrames
= 11 as the claim states. -/
theorem splitRequestedTemporalRegion_reverse_cex :
    (SplitRequestedTemporalRegion ⟨3,2,-1,0⟩ ⟨10,4⟩).map TemporalRegion.frameStart =
      [12, 11] ∧
    (12 : Int) ≠ 10 + 4 - 3 := by decide

/-- C3 (amended): with a nonzero frame skip k, writing s0 for the unbuffered
start when k > 0 and for unbufferedStart + unbufferedDuration -
unitOutputNumberOfFrames (the source uses the unit output count here, not the
unit input count) when k < 0, and provided every value s0 + j*k stays inside
the unsigned 64-bit range of the start variable, window i starts at
s0 + i*k and has duration unitInputNumberOfFrames. -/
theorem splitRequestedTemporalRegion_window_starts (cfg : TPOConfig)
    (u : TemporalRegion) (s0 : Int)
    (hu : 0 < cfg.unitOutputNumberOfFrames)
    (hk : cfg.frameSkipPerOutput ≠ 0)
    (hs0 : s0 = if 0 < cfg.frameSkipPerOutput then u.frameStart
      else u.frameStart + (u.frameDuration : Int) - (cfg.unitOutputNumberOfFrames : Int))
    (H : ∀ j : Nat, j < ceilDivNat u.frameDuration cfg.unitOutputNumberOfFrames →
      0 ≤ s0 + (j : Int) * cfg.frameSkipPerOutput ∧
      s0 + (j : Int) * cfg.frameSkipPerOutput < 2 ^ 64) :
    SplitRequestedTemporalRegion cfg u =
      (List.range (ceilDivNat u.frameDuration cfg.unitOutputNumberOfFrames)).map
        (fun i => ⟨s0 + (i : Int) * cfg.frameSkipPerOutput,
          cfg.unitInputNumberOfFrames⟩) := by
  have hinit : SplitRequestedTemporalRegion cfg u =
      splitGo cfg.frameSkipPerOutput cfg.unitInputNumberOfFrames
        (ceilDivNat u.frameDuration cfg.unitOutputNumberOfFrames) (wrap64 s0) := by
    unfold SplitRequestedTemporalRegion
    rcases lt_trichotomy cfg.frameSkipPerOutput 0 with hneg | hzero | hpos
    · rw [if_neg (by omega), if_pos hneg, hs0, if_neg (by omega)]
    · exact absurd hzero hk
    · rw [if_pos hpos, hs0, if_pos hpos]
  rw [hinit]
  exact splitGo_wrap_eq_map _ _ _ _ H

/-- C3 witness: the reverse scenario with unitInput 3, unitOutput 2,
frame skip -1 and unbuffered region [10, 4): two windows, starting at 12
and 11, each of duration 3. -/
theorem splitRequestedTemporalRegion_window_starts_witness :
    0 < (2 : Nat) ∧ ((-1 : Int) ≠ 0) ∧
    ((12 : Int) = if (0 : Int) < -1 then (10 : Int)
      else 10 + ((4 : Nat) : Int) - ((2 : Nat) : Int)) ∧
    (∀ j : Nat, j < ceilDivNat 4 2 →
      0 ≤ (12 : Int) + (j : Int) * (-1) ∧ (12 : Int) + (j : Int) * (-1) < 2 ^ 64) ∧
    SplitRequestedTemporalRegion ⟨3,2,-1,0⟩ ⟨10,4⟩ = [⟨12,3⟩, ⟨11,3⟩] :=
  ⟨by decide, by decide, by decide, by decide,
    (splitRequestedTemporalRegion_window_starts ⟨3,2,-1,0⟩ ⟨10,4⟩ 12
      (by decide) (by decide) (by decide) (by decide)).trans (by decide)⟩

/-- C5: for a positive unit output count and a nonempty unbuffered region,
SplitRequestedTemporalRegion emits exactly
ceil(unbufferedDuration / unitOutputNumberOfFrames) windows, each of
duration unitInputNumberOfFrames. -/
theorem splitRequestedTemporalRegion_count_duration (cfg : TPOConfig)
    (u : TemporalRegion) (hu : 0 < cfg.unitOutputNumberOfFrames)
    (hd : 0 < u.frameDuration) :
    (SplitRequestedTemporalRegion cfg u).length =
      ceilDivNat u.frameDuration cfg.unitOutputNumberOfFrames ∧
    ∀ r ∈ SplitRequestedTemporalRegion cfg u,
      r.frameDuration = cfg.unitInputNumberOfFrames := by
  unfold SplitRequestedTemporalRegion
  exact ⟨splitGo_length _ _ _ _, fun r hr => splitGo_duration _ _ _ _ r hr⟩

/-- C5 witness: the scenario of the specification: unbuffered region [10, 4)
and unit output 2 give exactly 2 windows. -/
theorem splitRequestedTemporalRegion_count_duration_witness :
    0 < (2 : Nat) ∧ 0 < (4 : Nat) ∧
    (SplitRequestedTemporalRegion ⟨3,2,1,0⟩ ⟨10,4⟩).length = 2 :=
  ⟨by decide, by decide,
    (splitRequestedTemporalRegion_count_duration ⟨3,2,1,0⟩ ⟨10,4⟩
      (by decide) (by decide)).1.trans (by decide)⟩

/-- The emission loop pinned at start 1 with zero skip repeats one window. -/
theorem splitGo_zero (ui : Nat) :
    ∀ n : Nat, splitGo 0 ui n 1 = List.replicate n ⟨1, ui⟩
  | 0 => rfl
  | n + 1 => by
    have hw : wrap64 (1 + 0) = 1 := by
      unfold wrap64
      exact Int.emod_eq_of_lt (by norm_num) (by norm_num)
    simp only [splitGo, hw, List.replicate]
    rw [splitGo_zero ui n]

/-- C9: with frameSkipPerOutput = 0, neither branch overwrites the start
variable initializer, so every one of the ceil(duration / unitOutput)
emitted windows is the identical region starting at frame 1 with duration
unitInputNumberOfFrames, regardless of the unbuffered region's start. -/
theorem splitRequestedTemporalRegion_zero_skip (cfg : TPOConfig)
    (u : TemporalRegion) (hk : cfg.frameSkipPerOutput = 0) :
    SplitRequestedTemporalRegion cfg u =
      List.replicate (ceilDivNat u.frameDuration cfg.unitOutputNumberOfFrames)
        ⟨1, cfg.unitInputNumberOfFrames⟩ := by
  unfold SplitRequestedTemporalRegion
  rw [hk]
  rw [if_neg (lt_irrefl (0 : Int)), if_neg (lt_irrefl (0 : Int))]
  exact splitGo_zero _ _

/-- C9 witness: unit input 2, unit output 1, zero skip, unbuffered region
[7, 3): three identical windows [1, 2). -/
theorem splitRequestedTemporalRegion_zero_skip_witness :
    ((0 : Int) = 0) ∧
    SplitRequestedTemporalRegion ⟨2,1,0,0⟩ ⟨7,3⟩ = [⟨1,2⟩, ⟨1,2⟩, ⟨1,2⟩] :=
  ⟨rfl,
    (splitRequestedTemporalRegion_zero_skip ⟨2,1,0,0⟩ ⟨7,3⟩ (by decide)).trans
      (by decide)⟩

/-- C4 counterexample: with unitInput 1, unitOutput 2, frame skip 2, stencil 0
and input largest region [0, 2), the scannable duration is 2 and the source
computes the output duration as the truncation of 2 * ((2-1)/2 + 1) = 3.0,
namely 3; the claimed formula unitOutput * floor((scannable-1)/skip + 1)
gives 2 * floor(1.5) = 2. All intermediate doubles here are dyadic, so exact
arithmetic coincides with the source's double arithmetic. -/
theorem updateOutputInformation_floor_cex :
    (UpdateOutputInformation ⟨1,2,2,0⟩ ⟨⟨0,2⟩,⟨0,0⟩,⟨0,0⟩⟩
        ⟨⟨0,0⟩,⟨0,0⟩,⟨0,0⟩⟩).largestPossibleTemporalRegion.frameDuration = 3 ∧
    ((3 : Int) ≠ 2 * (Int.fdiv (2 - 1) 2 + 1)) := by decide

/-- C4 (amended): with nonzero frame skip, writing D for the truncation
toward zero of unitOutput * ((scannableDuration - 1)/frameSkip + 1) - the
truncation of the whole product, equal to tdiv of
unitOutput * (scannableDuration - 1 + frameSkip) by frameSkip, rather than
unitOutput times the floor of the quotient - and provided D fits the
unsigned duration field, UpdateOutputInformation sets the output's largest
possible region to start inputLargestStart + inputStencilCurrentFrameIndex
and duration D, with scannableDuration = inputLargestDuration -
unitInputNumberOfFrames + 1. -/
theorem updateOutputInformation_spec (cfg : TPOConfig)
    (input output : TemporalDataObject)
    (hk : cfg.frameSkipPerOutput ≠ 0)
    (h0 : 0 ≤ Int.tdiv ((cfg.unitOutputNumberOfFrames : Int) *
        ((input.largestPossibleTemporalRegion.frameDuration : Int) -
          (cfg.unitInputNumberOfFrames : Int) + 1 - 1 + cfg.frameSkipPerOutput))
        cfg.frameSkipPerOutput)
    (h1 : Int.tdiv ((cfg.unitOutputNumberOfFrames : Int) *
        ((input.largestPossibleTemporalRegion.frameDuration : Int) -
          (cfg.unitInputNumberOfFrames : Int) + 1 - 1 + cfg.frameSkipPerOutput))
        cfg.frameSkipPerOutput < 2 ^ 64) :
    (UpdateOutputInformation cfg input output).largestPossibleTemporalRegion =
      ⟨input.largestPossibleTemporalRegion.frameStart +
          cfg.inputStencilCurrentFrameIndex,
        (Int.tdiv ((cfg.unitOutputNumberOfFrames : Int) *
          ((input.largestPossibleTemporalRegion.frameDuration : Int) -
            (cfg.unitInputNumberOfFrames : Int) + 1 - 1 + cfg.frameSkipPerOutput))
          cfg.frameSkipPerOutput).toNat⟩ := by
  have hw : wrap64 (Int.tdiv ((cfg.unitOutputNumberOfFrames : Int) *
      ((input.largestPossibleTemporalRegion.frameDuration : Int) -
        (cfg.unitInputNumberOfFrames : Int) + 1 - 1 + cfg.frameSkipPerOutput))
      cfg.frameSkipPerOutput) =
      Int.tdiv ((cfg.unitOutputNumberOfFrames : Int) *
      ((input.largestPossibleTemporalRegion.frameDuration : Int) -
        (cfg.unitInputNumberOfFrames : Int) + 1 - 1 + cfg.frameSkipPerOutput))
      cfg.frameSkipPerOutput := Int.emod_eq_of_lt h0 h1
  simp only [UpdateOutputInformation]
  rw [hw]

/-- C4 witness: in the counterexample configuration the amended formula is
realized: the largest possible output region becomes [0, 3). -/
theorem updateOutputInformation_spec_witness :
    ((2 : Int) ≠ 0) ∧
    (UpdateOutputInformation ⟨1,2,2,0⟩ ⟨⟨0,2⟩,⟨0,0⟩,⟨0,0⟩⟩
        ⟨⟨0,0⟩,⟨0,0⟩,⟨0,0⟩⟩).largestPossibleTemporalRegion = ⟨0, 3⟩ :=
  ⟨by decide,
    (updateOutputInformation_spec ⟨1,2,2,0⟩ ⟨⟨0,2⟩,⟨0,0⟩,⟨0,0⟩⟩
      ⟨⟨0,0⟩,⟨0,0⟩,⟨0,0⟩⟩ (by decide) (by decide) (by decide)).trans (by decide)⟩

/-- C6 (code bug witness): with a non-temporal input(0) and a temporal
output(0), GenerateInputRequestedRegion does not raise TypeMismatch: both
dynamic casts in the source are applied to GetOutput(0), so the input check
passes vacuously and the call proceeds into
GenerateInputRequestedTemporalRegion, which dereferences the failed cast of
the input (modelled as nullAccess). The claim - and the source's own error
message, which names GetInput(0) - requires a TypeMismatch failure here. -/
theorem genInputRequestedRegion_input_check_bug :
    GenerateInputRequestedRegion ⟨3,1,1,1⟩ DataObject.generic
        (DataObject.temporal ⟨⟨0,0⟩,⟨5,1⟩,⟨0,0⟩⟩) =
      Except.error TemporalError.nullAccess ∧
    GenerateInputRequestedRegion ⟨3,1,1,1⟩ DataObject.generic
        (DataObject.temporal ⟨⟨0,0⟩,⟨5,1⟩,⟨0,0⟩⟩) ≠
      Except.error TemporalError.typeMismatch := by decide

/-- The inner division loop preserves positivity of the size. -/
theorem stripFactor_pos (f : Nat) : ∀ n : Nat, 0 < n → 0 < stripFactor f n := by
  intro n
  induction n using Nat.strong_induction_on with
  | _ n ih =>
    intro hn
    rw [stripFactor]
    split
    · next h =>
      exact ih (n / f) (Nat.div_lt_self hn (by omega))
        (Nat.div_pos (Nat.le_of_dvd hn (Nat.dvd_of_mod_eq_zero h.2.2)) (by omega))
    · exact hn

/-- The fully divided value divides the original size. -/
theorem stripFactor_dvd (f : Nat) : ∀ n : Nat, stripFactor f n ∣ n := by
  intro n
  induction n using Nat.strong_induction_on with
  | _ n ih =>
    rw [stripFactor]
    split
    · next h =>
      have hdvd : f ∣ n := Nat.dvd_of_mod_eq_zero h.2.2
      have hd : stripFactor f (n / f) ∣ n / f :=
        ih (n / f) (Nat.div_lt_self h.2.1 (by omega))
      exact hd.trans (Nat.div_dvd_of_dvd hdvd)
    · exact dvd_rfl

/-- After the loop, the factor no longer divides the value. -/
theorem stripFactor_not_dvd (f : Nat) :
    ∀ n : Nat, 2 ≤ f → 0 < n → ¬ f ∣ stripFactor f n := by
  intro n
  induction n using Nat.strong_induction_on with
  | _ n ih =>
    intro hf hn
    rw [stripFactor]
    split
    · next h =>
      exact ih (n / f) (Nat.div_lt_self hn (by omega)) hf
        (Nat.div_pos (Nat.le_of_dvd hn (Nat.dvd_of_mod_eq_zero h.2.2)) (by omega))
    · next h =>
      intro hdvd
      exact h ⟨hf, hn, Nat.eq_zero_of_dvd_of_lt hdvd |> fun _ => Nat.mod_eq_zero_of_dvd hdvd⟩

/-- The loop only removes copies of the factor: the original size is a power
of the factor times the fully divided value. -/
theorem stripFactor_exists_pow (f : Nat) :
    ∀ n : Nat, ∃ a : Nat, n = f ^ a * stripFactor f n := by
  intro n
  induction n using Nat.strong_induction_on with
  | _ n ih =>
    rw [stripFactor]
    split
    · next h =>
      obtain ⟨a, ha⟩ := ih (n / f) (Nat.div_lt_self h.2.1 (by omega))
      refine ⟨a + 1, ?_⟩
      have hdvd : f ∣ n := Nat.dvd_of_mod_eq_zero h.2.2
      calc n = f * (n / f) := (Nat.mul_div_cancel' hdvd).symm
        _ = f * (f ^ a * stripFactor f (n / f)) := by rw [← ha]
        _ = f ^ (a + 1) * stripFactor f (n / f) := by ring
    · exact ⟨0, by ring⟩

/-- With fuel exceeding the size, the fuelled inner loop terminates and
computes the fully divided value. -/
theorem divLoop_eq_strip (f : Nat) (hf : 2 ≤ f) :
    ∀ (fuel n : Nat), 0 < n → n < fuel →
      divLoop f n fuel = some (stripFactor f n) := by
  intro fuel
  induction fuel with
  | zero => intro n hn hlt; omega
  | succ fuel ih =>
    intro n hn hlt
    simp only [divLoop]
    by_cases hm : n % f = 0
    · rw [if_pos hm]
      have hdvd : f ∣ n := Nat.dvd_of_mod_eq_zero hm
      have hdl : n / f < n := Nat.div_lt_self hn (by omega)
      rw [ih (n / f) (Nat.div_pos (Nat.le_of_dvd hn hdvd) (by omega)) (by omega)]
      conv_rhs => rw [stripFactor]
      rw [dif_pos ⟨hf, hn, hm⟩]
    · rw [if_neg hm]
      conv_rhs => rw [stripFactor]
      rw [dif_neg (fun hcon => hm hcon.2.2)]

/-- On size 0 the inner division loop never exits, for any fuel: 0 is
divisible by the factor and dividing leaves 0. -/
theorem divLoop_zero (f : Nat) : ∀ fuel : Nat, divLoop f 0 fuel = none := by
  intro fuel
  induction fuel with
  | zero => rfl
  | succ fuel ih => simpa [divLoop] using ih

/-- For a positive size, fuel n+1 suffices for all three inner loops. -/
theorem isDimensionSizeLegalFuel_eq (n : Nat) (hn : 0 < n) :
    IsDimensionSizeLegalFuel n (n + 1) = some (IsDimensionSizeLegal n) := by
  have hp2 : 0 < stripFactor 2 n := stripFactor_pos 2 n hn
  have hp3 : 0 < stripFactor 3 (stripFactor 2 n) := stripFactor_pos 3 _ hp2
  have hle2 : stripFactor 2 n ≤ n := Nat.le_of_dvd hn (stripFactor_dvd 2 n)
  have hle3 : stripFactor 3 (stripFactor 2 n) ≤ stripFactor 2 n :=
    Nat.le_of_dvd hp2 (stripFactor_dvd 3 _)
  have h2 : divLoop 2 n (n + 1) = some (stripFactor 2 n) :=
    divLoop_eq_strip 2 (by omega) (n + 1) n hn (by omega)
  have h3 : divLoop 3 (stripFactor 2 n) (n + 1) =
      some (stripFactor 3 (stripFactor 2 n)) :=
    divLoop_eq_strip 3 (by omega) (n + 1) _ hp2 (by omega)
  have h5 : divLoop 5 (stripFactor 3 (stripFactor 2 n)) (n + 1) =
      some (stripFactor 5 (stripFactor 3 (stripFactor 2 n))) :=
    divLoop_eq_strip 5 (by omega) (n + 1) _ hp3 (by omega)
  unfold IsDimensionSizeLegalFuel
  rw [h2, Option.some_bind, h3, Option.some_bind, h5]
  rfl

/-- For a positive size, the size check accepts exactly the products of
powers of 2, 3 and 5. -/
theorem isDimensionSizeLegal_iff (n : Nat) (hn : 0 < n) :
    IsDimensionSizeLegal n = true ↔ ∃ a b c : Nat, n = 2 ^ a * 3 ^ b * 5 ^ c := by
  unfold IsDimensionSizeLegal
  rw [beq_iff_eq]
  constructor
  · intro h1
    obtain ⟨a, ha⟩ := stripFactor_exists_pow 2 n
    obtain ⟨b, hb⟩ := stripFactor_exists_pow 3 (stripFactor 2 n)
    obtain ⟨c, hc⟩ := stripFactor_exists_pow 5 (stripFactor 3 (stripFactor 2 n))
    refine ⟨a, b, c, ?_⟩
    rw [ha, hb, hc, h1]
    ring
  · rintro ⟨a, b, c, habc⟩
    have hp2 : 0 < stripFactor 2 n := stripFactor_pos 2 n hn
    have hp3 : 0 < stripFactor 3 (stripFactor 2 n) := stripFactor_pos 3 _ hp2
    have hdvd : stripFactor 5 (stripFactor 3 (stripFactor 2 n)) ∣ n :=
      ((stripFactor_dvd 5 _).trans (stripFactor_dvd 3 _)).trans (stripFactor_dvd 2 n)
    have hnd2 : ¬ 2 ∣ stripFactor 5 (stripFactor 3 (stripFactor 2 n)) := fun hd =>
      stripFactor_not_dvd 2 n (by omega) hn
        (hd.trans ((stripFactor_dvd 5 _).trans (stripFactor_dvd 3 _)))
    have hnd3 : ¬ 3 ∣ stripFactor 5 (stripFactor 3 (stripFactor 2 n)) := fun hd =>
      stripFactor_not_dvd 3 (stripFactor 2 n) (by omega) hp2
        (hd.trans (stripFactor_dvd 5 _))
    have hnd5 : ¬ 5 ∣ stripFactor 5 (stripFactor 3 (stripFactor 2 n)) :=
      stripFactor_not_dvd 5 (stripFactor 3 (stripFactor 2 n)) (by omega) hp3
    have hc2 : Nat.Coprime 2 (stripFactor 5 (stripFactor 3 (stripFactor 2 n))) :=
      (Nat.Prime.coprime_iff_not_dvd Nat.prime_two).mpr hnd2
    have hc3 : Nat.Coprime 3 (stripFactor 5 (stripFactor 3 (stripFactor 2 n))) :=
      (Nat.Prime.coprime_iff_not_dvd Nat.prime_three).mpr hnd3
    have hc5 : Nat.Coprime 5 (stripFactor 5 (stripFactor 3 (stripFactor 2 n))) :=
      (Nat.Prime.coprime_iff_not_dvd (by norm_num)).mpr hnd5
    have hcn0 : Nat.Coprime (2 ^ a * 3 ^ b * 5 ^ c)
        (stripFactor 5 (stripFactor 3 (stripFactor 2 n))) :=
      Nat.Coprime.mul (Nat.Coprime.mul (hc2.pow_left a) (hc3.pow_left b))
        (hc5.pow_left c)
    have hcn : Nat.Coprime n (stripFactor 5 (stripFactor 3 (stripFactor 2 n))) := by
      nth_rewrite 1 [habc]
      exact hcn0
    have hd1 : stripFactor 5 (stripFactor 3 (stripFactor 2 n)) ∣ Nat.gcd n
        (stripFactor 5 (stripFactor 3 (stripFactor 2 n))) :=
      Nat.dvd_gcd hdvd dvd_rfl
    rw [Nat.Coprime] at hcn
    rw [hcn] at hd1
    exact Nat.dvd_one.mp hd1

/-- C10: for every positive input size n the fuelled embedding of
IsDimensionSizeLegal terminates (fuel n+1 suffices for each inner loop) with
the value of the total function, which is true exactly when n factors as
2^a * 3^b * 5^c; and on input 0 the first inner division loop exits for no
amount of fuel, so positivity is required for totality. -/
theorem isDimensionSizeLegal_correct :
    (∀ n : Nat, 1 ≤ n →
      IsDimensionSizeLegalFuel n (n + 1) = some (IsDimensionSizeLegal n) ∧
      (IsDimensionSizeLegal n = true ↔ ∃ a b c : Nat, n = 2 ^ a * 3 ^ b * 5 ^ c)) ∧
    (∀ fuel : Nat, divLoop 2 0 fuel = none) :=
  ⟨fun n hn => ⟨isDimensionSizeLegalFuel_eq n hn, isDimensionSizeLegal_iff n hn⟩,
    divLoop_zero 2⟩

/-- C10 witness: at n = 30 = 2 * 3 * 5 the fuelled check terminates with the
value of the total function, and the characterization holds. -/
theorem isDimensionSizeLegal_correct_witness :
    1 ≤ 30 ∧
    (IsDimensionSizeLegalFuel 30 (30 + 1) = some (IsDimensionSizeLegal 30) ∧
      (IsDimensionSizeLegal 30 = true ↔ ∃ a b c : Nat, 30 = 2 ^ a * 3 ^ b * 5 ^ c)) :=
  ⟨by decide, isDimensionSizeLegal_correct.1 30 (by decide)⟩
